import Mathlib

/-!
# dnodeWrite.c : write dispatch, worker pool and response merging

A shallow embedding of `src/dnode/src/dnodeWrite.c`.  Pointers are numbers,
`int32_t` values are integers (with an explicit 32-bit wrap where the source
does arithmetic), the thread-local `terrno` is a field of the state, and every
call into another module (rpc, tqueue, vnode registry, pthread) is recorded as
an `Event` of a call log, in program order.
-/

namespace DnodeWrite

/-! ## Data model -/

/-- Address of a vnode object (`void *pVnode`). -/
abbrev VnodePtr := Nat

/-- Address of an `SRpcContext` allocated by `calloc`. -/
abbrev CtxPtr := Nat

/-- A `taos_queue` as returned by `taosOpenQueue`. -/
abbrev Queue := Nat

/-- The largest `int32_t`. -/
def INT32_MAX : Int := 2147483647

/-- Two's complement wrap of an integer into the `int32_t` range. -/
def wrapInt32 (x : Int) : Int :=
  (x + 2147483648) % 4294967296 - 2147483648

/-- The struct `SRpcContext` (lines 26-30). -/
structure SRpcContext where
  code : Int
  count : Int
  numOfVnodes : Int
deriving DecidableEq, Repr

/-- The fields of `SRpcMsg` (declared in trpc.h) that dnodeWrite.c touches.
`pCont` is an address, 0 standing for NULL. -/
structure SRpcMsg where
  msgType : Nat
  pCont : Int
  contLen : Int
  handle : Nat
  code : Int
deriving DecidableEq, Repr

/-- The struct `SWriteMsg` (lines 32-37); `pRpcContext = none` is the NULL pointer. -/
structure SWriteMsg where
  pCont : Int
  contLen : Int
  rpcMsg : SRpcMsg
  pRpcContext : Option CtxPtr
deriving DecidableEq, Repr

/-- Calls that leave dnodeWrite.c, in the order the program makes them.
`processWriteMsgFp` is a call through the table `dnodeProcessWriteMsgFp` and
`processWriteResult` the entry of `dnodeProcessWriteResult`; both record the
value of `terrno` at the moment of the call.  `walWrite` and `walFsync` stand
for the two calls that the source names only inside comments (lines 175 and
179). -/
inductive Event where
  | dnodeReleaseVnode (pVnode : VnodePtr)
  | rpcSendResponse (handle : Nat) (code : Int) (pCont : Int)
  | rpcFreeCont (pCont : Int)
  | taosGetQitem (pWrite : SWriteMsg)
  | taosResetQitems
  | taosFreeQitems
  | processWriteMsgFp (msgType : Nat) (pVnode : VnodePtr) (pWrite : SWriteMsg) (terrno : Int)
  | processWriteResult (pVnode : VnodePtr) (pWrite : SWriteMsg) (terrno : Int)
  | walWrite (pVnode : VnodePtr) (msgType : Nat) (pCont : Int) (contLen : Int)
  | walFsync (pVnode : VnodePtr)
  | dnodeGetVnode (vgId : Int)
  | taosWriteQitem (queue : Queue) (pWrite : SWriteMsg)
  | taosOpenQset (ok : Bool)
  | pthreadCreate (ok : Bool)
  | taosCloseQset
  | taosOpenQueue (queue : Option Queue)
  | taosAddIntoQset (queue : Queue) (pVnode : VnodePtr)
  | usleep (micros : Nat)
  | schedYield
  | pthreadExit
deriving DecidableEq, Repr

/-- The memory and thread state that the write path reads and writes: the heap
of fan-out contexts, the next address `calloc` hands out, the thread-local
`terrno`, and the call log. -/
structure World where
  ctxs : CtxPtr → SRpcContext
  nextCtx : CtxPtr
  terrno : Int
  trace : List Event

/-- Store a context at an address. -/
def World.setCtx (w : World) (p : CtxPtr) (c : SRpcContext) : World :=
  { w with ctxs := fun q => if q = p then c else w.ctxs q }

/-- Append one call to the log. -/
def World.emit (w : World) (e : Event) : World :=
  { w with trace := w.trace ++ [e] }

/-- The builtin `atomic_add_fetch_32`: add, wrap to 32 bits, return the new value. -/
def atomic_add_fetch_32 (old : Int) (v : Int) : Int :=
  wrapInt32 (old + v)

/-! ## dnodeProcessWriteResult (lines 203-232) -/

/-- Lines 226-231: build `rsp`, send it and free the received message. -/
def sendWriteRsp (pWrite : SWriteMsg) (code : Int) (w : World) : World :=
  (w.emit (Event.rpcSendResponse pWrite.rpcMsg.handle code 0)).emit
    (Event.rpcFreeCont pWrite.rpcMsg.pCont)

/-- The function `dnodeProcessWriteResult`. -/
def dnodeProcessWriteResult (pVnode : VnodePtr) (pWrite : SWriteMsg) (w : World) : World :=
  let w0 := w.emit (Event.processWriteResult pVnode pWrite w.terrno)
  let w1 := w0.emit (Event.dnodeReleaseVnode pVnode)
  match pWrite.pRpcContext with
  | some p =>
    let ctx := w1.ctxs p
    let ctx1 : SRpcContext :=
      if w1.terrno ≠ 0 then
        (if ctx.code = 0 then { ctx with code := w1.terrno } else ctx)
      else ctx
    let count := atomic_add_fetch_32 ctx1.count 1
    let ctx2 : SRpcContext := { ctx1 with count := count }
    let w2 := w1.setCtx p ctx2
    if count < ctx2.numOfVnodes then
      w2
    else
      sendWriteRsp pWrite ctx2.code w2
  | none =>
    sendWriteRsp pWrite w1.terrno w1

/-- One completion of a sub-message: the worker leaves `status` in `terrno`
and calls `dnodeProcessWriteResult` (lines 186-193). -/
def complete (w : World) (c : VnodePtr × SWriteMsg × Int) : World :=
  dnodeProcessWriteResult c.1 c.2.1 { w with terrno := c.2.2 }

/-- A sequence of completions, processed one after another. -/
def completions (cs : List (VnodePtr × SWriteMsg × Int)) (w : World) : World :=
  cs.foldl complete w

/-- The responses sent so far: handle and code of each `rpcSendResponse`, in order. -/
def responses (t : List Event) : List (Nat × Int) :=
  t.filterMap fun e =>
    match e with
    | Event.rpcSendResponse h c _ => some (h, c)
    | _ => none

/-- The first non-zero status of a list, 0 when there is none. -/
def firstNonZero : List Int → Int
  | [] => 0
  | s :: ss => if s ≠ 0 then s else firstNonZero ss

/-- The merged code: a sticky code `c0` already set wins, else the first
non-zero status. -/
def mergeCode (c0 : Int) (ss : List Int) : Int :=
  if c0 ≠ 0 then c0 else firstNonZero ss

/-- The response that closes a fan-out, if the list of completions is not empty. -/
def closing (cs : List (VnodePtr × SWriteMsg × Int)) (code : Int) : List (Nat × Int) :=
  match cs.getLast? with
  | some c => [(c.2.1.rpcMsg.handle, code)]
  | none => []

/-! ## Handler table and dnodeInitWrite (lines 51, 61-75) -/

/-- A message handler `void (*)(void *, SWriteMsg *)`, seen through its effect
on `terrno`: given the vnode, the message and `terrno` at entry, the value of
`terrno` it leaves. -/
abbrev Handler := VnodePtr → SWriteMsg → Int → Int

/-- The table `dnodeProcessWriteMsgFp`; `none` is a NULL entry. -/
abbrev FpTable := Nat → Option Handler

/-- The constants of taosmsg.h and taoserror.h that dnodeWrite.c names. -/
structure Consts where
  TSDB_MSG_TYPE_SUBMIT : Nat
  TSDB_MSG_TYPE_MD_CREATE_TABLE : Nat
  TSDB_MSG_TYPE_MD_DROP_TABLE : Nat
  TSDB_CODE_MSG_NOT_PROCESSED : Int

/-- The handler `dnodeProcessSubmitMsg` (lines 247-249): an empty body. -/
def dnodeProcessSubmitMsg : Handler := fun _ _ terrno => terrno

/-- The handler `dnodeProcessCreateTableMsg` (lines 251-253): an empty body. -/
def dnodeProcessCreateTableMsg : Handler := fun _ _ terrno => terrno

/-- The handler `dnodeProcessDropTableMsg` (lines 255-257): an empty body. -/
def dnodeProcessDropTableMsg : Handler := fun _ _ terrno => terrno

/-- Assignment `table[k] = h`. -/
def FpTable.set (t : FpTable) (k : Nat) (h : Handler) : FpTable :=
  fun j => if j = k then some h else t j

/-- The member queues of a `taos_qset`, each tagged with its vnode, and whether
`taosCloseQset` has been called on it. -/
structure Qset where
  closed : Bool
  queues : List (Queue × VnodePtr)
deriving DecidableEq, Repr

/-- The struct `SWriteWorker` (lines 39-43).  `qset = none` is the NULL
pointer; `thread` tells whether a thread running `dnodeProcessWriteQueue` on
this slot is alive. -/
structure SWriteWorker where
  qset : Option Qset
  thread : Bool
  workerId : Int
deriving DecidableEq, Repr

/-- The struct `SWriteWorkerPool` (lines 45-49); `writeWorker` is the array,
indexed by integers. -/
structure SWriteWorkerPool where
  max : Int
  nextId : Int
  writeWorker : Int → SWriteWorker

/-- Store a worker at an index of the array. -/
def SWriteWorkerPool.setWorker (pool : SWriteWorkerPool) (i : Int) (wk : SWriteWorker) :
    SWriteWorkerPool :=
  { pool with writeWorker := fun j => if j = i then wk else pool.writeWorker j }

/-- A zeroed `SWriteWorker`, as `calloc` returns it. -/
def zeroWorker : SWriteWorker := { qset := none, thread := false, workerId := 0 }

/-- The statics of the file: the handler table and `wWorkerPool`. -/
structure Dnode where
  dnodeProcessWriteMsgFp : FpTable
  wWorkerPool : SWriteWorkerPool

/-- The statics before `dnodeInitWrite`: zero-initialised. -/
def Dnode.zero : Dnode :=
  { dnodeProcessWriteMsgFp := fun _ => none
    wWorkerPool := { max := 0, nextId := 0, writeWorker := fun _ => zeroWorker } }

/-- The function `dnodeInitWrite`; `callocOk` tells whether `calloc` succeeds.
The result is the return value and the statics afterwards. -/
def dnodeInitWrite (K : Consts) (tsNumOfCores : Int) (callocOk : Bool) (d : Dnode) :
    Int × Dnode :=
  let fp := ((d.dnodeProcessWriteMsgFp.set K.TSDB_MSG_TYPE_SUBMIT dnodeProcessSubmitMsg).set
    K.TSDB_MSG_TYPE_MD_CREATE_TABLE dnodeProcessCreateTableMsg).set
    K.TSDB_MSG_TYPE_MD_DROP_TABLE dnodeProcessDropTableMsg
  let pool1 : SWriteWorkerPool := { d.wWorkerPool with max := tsNumOfCores }
  if callocOk then
    let pool2 : SWriteWorkerPool :=
      { pool1 with
        writeWorker := fun i =>
          if 0 ≤ i ∧ i < pool1.max then { zeroWorker with workerId := i } else zeroWorker }
    (0, { dnodeProcessWriteMsgFp := fp, wWorkerPool := pool2 })
  else
    (-1, { dnodeProcessWriteMsgFp := fp, wWorkerPool := pool1 })

/-! ## dnodeWrite (lines 81-122) -/

/-- The variables that the `while` loop of `dnodeWrite` changes, and the world. -/
structure WriteLoop where
  leftLen : Int
  pCont : Int
  w : World

/-- One pass through the body of the `while` loop (lines 99-120).
`lookup` is the result of this pass's `dnodeGetVnode` call, `vgId` and
`contLen` are the locals of those names: the source never assigns them. -/
def dnodeWriteBody (lookup : Int → Option VnodePtr) (dnodeGetVnodeWworker : VnodePtr → Queue)
    (pMsg : SRpcMsg) (pRpcContext : Option CtxPtr) (vgId contLen : Int) (s : WriteLoop) :
    WriteLoop :=
  let w1 := s.w.emit (Event.dnodeGetVnode vgId)
  match lookup vgId with
  | none => { s with w := w1 }
  | some pVnode =>
    let pWriteMsg : SWriteMsg :=
      { rpcMsg := pMsg, pCont := s.pCont, contLen := contLen, pRpcContext := pRpcContext }
    let queue := dnodeGetVnodeWworker pVnode
    let w2 := w1.emit (Event.taosWriteQitem queue pWriteMsg)
    { leftLen := wrapInt32 (s.leftLen - contLen), pCont := s.pCont - contLen, w := w2 }

/-- The `while (leftLen > 0)` loop run for at most `n` passes; `i` counts the
passes made so far and `dnodeGetVnode i` is the shard registry as the pass
numbered `i` finds it. -/
def dnodeWriteRun (dnodeGetVnode : Nat → Int → Option VnodePtr)
    (dnodeGetVnodeWworker : VnodePtr → Queue) (pMsg : SRpcMsg) (pRpcContext : Option CtxPtr)
    (vgId contLen : Int) : Nat → Nat → WriteLoop → WriteLoop
  | 0, _, s => s
  | n + 1, i, s =>
    if s.leftLen > 0 then
      dnodeWriteRun dnodeGetVnode dnodeGetVnodeWworker pMsg pRpcContext vgId contLen n (i + 1)
        (dnodeWriteBody (dnodeGetVnode i) dnodeGetVnodeWworker pMsg pRpcContext vgId contLen s)
    else s

/-- Lines 87-96: `numOfVnodes` is 0 when the test `numOfVnodes > 1` is made,
the parse that would set it being a comment.  The result is `pRpcContext`. -/
def dnodeWriteContext (w : World) : Option CtxPtr × World :=
  let numOfVnodes : Int := 0
  if numOfVnodes > 1 then
    let p := w.nextCtx
    (some p, { (w.setCtx p { code := 0, count := 0, numOfVnodes := numOfVnodes }) with
                nextCtx := p + 1 })
  else
    (none, w)

/-- The state of `dnodeWrite` after at most `n` passes through its loop. -/
def dnodeWriteSteps (dnodeGetVnode : Nat → Int → Option VnodePtr)
    (dnodeGetVnodeWworker : VnodePtr → Queue) (pMsg : SRpcMsg) (n : Nat) (w : World) :
    WriteLoop :=
  let contLen : Int := 0
  let vgId : Int := 0
  let r := dnodeWriteContext w
  dnodeWriteRun dnodeGetVnode dnodeGetVnodeWworker pMsg r.1 vgId contLen n 0
    { leftLen := pMsg.contLen, pCont := pMsg.pCont, w := r.2 }

/-- The function `dnodeWrite` with a bound on the passes through its loop:
`none` when the loop is still running after `fuel` passes. -/
def dnodeWrite (dnodeGetVnode : Nat → Int → Option VnodePtr)
    (dnodeGetVnodeWworker : VnodePtr → Queue) (pMsg : SRpcMsg) (fuel : Nat) (w : World) :
    Option World :=
  let s := dnodeWriteSteps dnodeGetVnode dnodeGetVnodeWworker pMsg fuel w
  if s.leftLen > 0 then none else some s.w

/-- The sub-messages put on queues so far, in order. -/
def enqueued (t : List Event) : List SWriteMsg :=
  t.filterMap fun e =>
    match e with
    | Event.taosWriteQitem _ m => some m
    | _ => none

/-! ## dnodeAllocateWriteWorker (lines 124-148) -/

/-- What the environment answers during one `dnodeAllocateWriteWorker` call:
whether `taosOpenQset` returns a qset, whether `pthread_create` returns 0, and
the result of `taosOpenQueue`. -/
structure AllocOutcome where
  qsetOk : Bool
  threadOk : Bool
  queue : Option Queue
deriving DecidableEq, Repr

/-- The call `taosCloseQset` on a qset. -/
def taosCloseQset (q : Qset) : Qset := { q with closed := true }

/-- The call `taosAddIntoQset` on the qset a worker points to. -/
def taosAddIntoQset (qset : Option Qset) (queue : Queue) (pVnode : VnodePtr) : Option Qset :=
  qset.map fun q => { q with queues := q.queues ++ [(queue, pVnode)] }

/-- Lines 127-139: the worker after the `if (pWorker->qset == NULL)` block, or
`none` when the block returns NULL, and the calls made. -/
def ensureWorker (o : AllocOutcome) (pWorker : SWriteWorker) :
    Option SWriteWorker × List Event :=
  match pWorker.qset with
  | some _ => (some pWorker, [])
  | none =>
    if o.qsetOk then
      let wk1 : SWriteWorker := { pWorker with qset := some { closed := false, queues := [] } }
      if o.threadOk then
        (some { wk1 with thread := true },
          [Event.taosOpenQset true, Event.pthreadCreate true])
      else
        (some { wk1 with qset := wk1.qset.map taosCloseQset },
          [Event.taosOpenQset true, Event.pthreadCreate false, Event.taosCloseQset])
    else
      (none, [Event.taosOpenQset false])

/-- The function `dnodeAllocateWriteWorker`: the returned queue (`none` for
NULL), the pool afterwards and the calls made. -/
def dnodeAllocateWriteWorker (o : AllocOutcome) (pVnode : VnodePtr) (pool : SWriteWorkerPool) :
    Option Queue × SWriteWorkerPool × List Event :=
  let r := ensureWorker o (pool.writeWorker pool.nextId)
  match r.1 with
  | none => (none, pool, r.2)
  | some wk =>
    match o.queue with
    | some queue =>
      let wk2 : SWriteWorker := { wk with qset := taosAddIntoQset wk.qset queue pVnode }
      (some queue,
        { (pool.setWorker pool.nextId wk2) with
          nextId := Int.tmod (wrapInt32 (pool.nextId + 1)) pool.max },
        r.2 ++ [Event.taosOpenQueue (some queue), Event.taosAddIntoQset queue pVnode])
    | none =>
      (none, pool.setWorker pool.nextId wk, r.2 ++ [Event.taosOpenQueue none])

/-! ## dnodeHandleIdleWorker (lines 234-245) -/

/-- The call `taosGetQueueNumber`: how many queues the qset owns. -/
def taosGetQueueNumber (qset : Option Qset) : Int :=
  match qset with
  | some q => (q.queues.length : Int)
  | none => 0

/-- The function `dnodeHandleIdleWorker`: the worker afterwards and the calls made. -/
def dnodeHandleIdleWorker (pWorker : SWriteWorker) : SWriteWorker × List Event :=
  let num := taosGetQueueNumber pWorker.qset
  if num > 0 then
    (pWorker, [Event.usleep 100, Event.schedYield])
  else
    ({ pWorker with qset := none, thread := false }, [Event.taosCloseQset, Event.pthreadExit])

/-! ## dnodeProcessWriteQueue (lines 156-201) -/

/-- The first `for` loop (lines 171-176): every item is fetched; the WAL call
in its body is a comment. -/
def fetchPass (qall : List SWriteMsg) (w : World) : World :=
  qall.foldl (fun acc m => acc.emit (Event.taosGetQitem m)) w

/-- The body of the second `for` loop (lines 184-193) for one item. -/
def processItem (fp : FpTable) (K : Consts) (pVnode : VnodePtr) (w : World) (m : SWriteMsg) :
    World :=
  let w1 := w.emit (Event.taosGetQitem m)
  let w2 : World := { w1 with terrno := 0 }
  let w3 : World :=
    match fp m.rpcMsg.msgType with
    | some h =>
      { (w2.emit (Event.processWriteMsgFp m.rpcMsg.msgType pVnode m w2.terrno)) with
        terrno := h pVnode m w2.terrno }
    | none => { w2 with terrno := K.TSDB_CODE_MSG_NOT_PROCESSED }
  dnodeProcessWriteResult pVnode m w3

/-- Lines 171-197 for one drained batch `qall` of `numOfMsgs = qall.length`
items read together with `pVnode`. -/
def processBatch (fp : FpTable) (K : Consts) (pVnode : VnodePtr) (qall : List SWriteMsg)
    (w : World) : World :=
  let w1 := fetchPass qall w
  let w2 := w1.emit Event.taosResetQitems
  let w3 := qall.foldl (processItem fp K pVnode) w2
  w3.emit Event.taosFreeQitems

/-- One pass through the `while (1)` of `dnodeProcessWriteQueue`, for the batch
`qall` that `taosReadAllQitemsFromQset` returned with `pVnode`. -/
def dnodeProcessWriteQueueStep (fp : FpTable) (K : Consts) (pVnode : VnodePtr)
    (qall : List SWriteMsg) (pWorker : SWriteWorker) (w : World) : SWriteWorker × World :=
  let numOfMsgs : Int := (qall.length : Int)
  if numOfMsgs ≤ 0 then
    let r := dnodeHandleIdleWorker pWorker
    (r.1, { w with trace := w.trace ++ r.2 })
  else
    (pWorker, processBatch fp K pVnode qall w)

/-- Whether a call is a durability-log call. -/
def Event.isWal : Event → Bool
  | Event.walWrite _ _ _ _ => true
  | Event.walFsync _ => true
  | _ => false

/-- Whether a call is a handler call or a `dnodeProcessWriteResult` entry. -/
def Event.isApply : Event → Bool
  | Event.processWriteMsgFp _ _ _ _ => true
  | Event.processWriteResult _ _ _ => true
  | _ => false

/-- The handler calls and `dnodeProcessWriteResult` entries of a log, in order. -/
def applyLog (t : List Event) : List Event :=
  t.filter Event.isApply

/-- What the second loop is to log for one item: the handler call with `terrno`
reset to 0 and the result call with what the handler leaves, or the result
call with `TSDB_CODE_MSG_NOT_PROCESSED` when the table entry is NULL. -/
def itemLog (fp : FpTable) (K : Consts) (pVnode : VnodePtr) (m : SWriteMsg) : List Event :=
  match fp m.rpcMsg.msgType with
  | some h =>
    [Event.processWriteMsgFp m.rpcMsg.msgType pVnode m 0,
      Event.processWriteResult pVnode m (h pVnode m 0)]
  | none => [Event.processWriteResult pVnode m K.TSDB_CODE_MSG_NOT_PROCESSED]

/-- The item logs of a batch, in batch order. -/
def batchLog (fp : FpTable) (K : Consts) (pVnode : VnodePtr) : List SWriteMsg → List Event
  | [] => []
  | m :: ms => itemLog fp K pVnode m ++ batchLog fp K pVnode ms

/-- The second world continues the log of the first by calls none of which is
a durability-log call. -/
def NoWalSince (w w2 : World) : Prop :=
  ∃ added, w2.trace = w.trace ++ added ∧ ∀ e ∈ added, e.isWal = false

/-- The slots used by the successful calls of a sequence of
`dnodeAllocateWriteWorker` calls, in order: the value of `nextId` at each call
that returns a queue. -/
def allocSlots : List (AllocOutcome × VnodePtr) → SWriteWorkerPool → List Int
  | [], _ => []
  | c :: rest, pool =>
    match (dnodeAllocateWriteWorker c.1 c.2 pool).1 with
    | some _ => pool.nextId :: allocSlots rest (dnodeAllocateWriteWorker c.1 c.2 pool).2.1
    | none => allocSlots rest (dnodeAllocateWriteWorker c.1 c.2 pool).2.1

/-! ## Concrete inputs -/

/-- Sample values for the constants of the headers. -/
def exConsts : Consts :=
  { TSDB_MSG_TYPE_SUBMIT := 1
    TSDB_MSG_TYPE_MD_CREATE_TABLE := 2
    TSDB_MSG_TYPE_MD_DROP_TABLE := 3
    TSDB_CODE_MSG_NOT_PROCESSED := 7 }

/-- A request of message kind 1 whose buffer at address 4096 holds 16 bytes. -/
def exRpcMsg : SRpcMsg :=
  { msgType := 1, pCont := 4096, contLen := 16, handle := 9, code := 0 }

/-- A sub-message of `exRpcMsg` with the given context pointer. -/
def exWrite (ctx : Option CtxPtr) : SWriteMsg :=
  { pCont := 4096, contLen := 8, rpcMsg := exRpcMsg, pRpcContext := ctx }

/-- A world whose context at every address is a fresh fan-out over 2 vnodes. -/
def exWorld : World :=
  { ctxs := fun _ => { code := 0, count := 0, numOfVnodes := 2 }
    nextCtx := 1, terrno := 0, trace := [] }

/-- Two completions on the context at address 0: vnode 11 fails with 5, vnode 12 succeeds. -/
def exCompletions : List (VnodePtr × SWriteMsg × Int) :=
  [(11, exWrite (some 0), 5), (12, exWrite (some 0), 0)]

/-- The pool after `dnodeInitWrite` on a machine with 2 cores. -/
def exPool : SWriteWorkerPool :=
  (dnodeInitWrite exConsts 2 true Dnode.zero).2.wWorkerPool

/-- The environment opens the qset, fails to create the thread, opens queue 7. -/
def exThreadFails : AllocOutcome :=
  { qsetOk := true, threadOk := false, queue := some 7 }

/-- A worker whose qset is open and owns no queue. -/
def exIdleWorker : SWriteWorker :=
  { qset := some { closed := false, queues := [] }, thread := true, workerId := 0 }

/-! ## Response merging: dnodeProcessWriteResult -/

theorem wrapInt32_of_range (x : Int) (h0 : -2147483648 ≤ x) (h1 : x ≤ 2147483647) :
    wrapInt32 x = x := by
  unfold wrapInt32
  omega

theorem responses_append (a b : List Event) :
    responses (a ++ b) = responses a ++ responses b := by
  unfold responses
  exact List.filterMap_append a b _

theorem firstNonZero_cons_zero (ss : List Int) : firstNonZero (0 :: ss) = firstNonZero ss := by
  simp [firstNonZero]

theorem firstNonZero_cons_ne (s : Int) (ss : List Int) (h : s ≠ 0) :
    firstNonZero (s :: ss) = s := by
  simp [firstNonZero, h]

/-- One completion on a message that carries a context: the context afterwards
and the responses sent. -/
theorem complete_ctx (w : World) (v : VnodePtr) (m : SWriteMsg) (s : Int) (p : CtxPtr)
    (hm : m.pRpcContext = some p) :
    (complete w (v, m, s)).ctxs p =
        { code := if s ≠ 0 ∧ (w.ctxs p).code = 0 then s else (w.ctxs p).code
          count := wrapInt32 ((w.ctxs p).count + 1)
          numOfVnodes := (w.ctxs p).numOfVnodes } ∧
      responses (complete w (v, m, s)).trace =
        responses w.trace ++
          (if wrapInt32 ((w.ctxs p).count + 1) < (w.ctxs p).numOfVnodes then []
           else [(m.rpcMsg.handle,
                  if s ≠ 0 ∧ (w.ctxs p).code = 0 then s else (w.ctxs p).code)]) := by
  by_cases hs : s = 0 <;> by_cases hc : (w.ctxs p).code = 0 <;>
    by_cases hlt : wrapInt32 ((w.ctxs p).count + 1) < (w.ctxs p).numOfVnodes <;>
    simp [complete, dnodeProcessWriteResult, hm, World.emit, World.setCtx, sendWriteRsp,
      atomic_add_fetch_32, responses, hs, hc, hlt, List.filterMap_append]

theorem mergeCode_step (c0 s : Int) (ss : List Int) :
    mergeCode (if s ≠ 0 ∧ c0 = 0 then s else c0) ss = mergeCode c0 (s :: ss) := by
  by_cases hs : s = 0 <;> by_cases hc : c0 = 0 <;> simp [mergeCode, firstNonZero, hs, hc]

/-- Invariant of a run of completions on one context, started at count `k0`
and sticky code `c0`, while the count does not pass `n`. -/
theorem completions_inv (p : CtxPtr) (n : Int) (hmax : n ≤ INT32_MAX) :
    ∀ (cs : List (VnodePtr × SWriteMsg × Int)) (w : World) (c0 k0 : Int),
      0 ≤ k0 → k0 + (cs.length : Int) ≤ n →
      w.ctxs p = { code := c0, count := k0, numOfVnodes := n } →
      (∀ c ∈ cs, c.2.1.pRpcContext = some p) →
      (completions cs w).ctxs p =
          { code := mergeCode c0 (cs.map fun c => c.2.2)
            count := k0 + (cs.length : Int), numOfVnodes := n } ∧
        responses (completions cs w).trace =
          responses w.trace ++
            (if k0 + (cs.length : Int) < n then []
             else closing cs (mergeCode c0 (cs.map fun c => c.2.2))) := by
  intro cs
  induction cs with
  | nil =>
    intro w c0 k0 _ hk hctx _
    constructor
    · simp only [completions, List.foldl_nil, List.map_nil, List.length_nil, hctx]
      by_cases hc : c0 = 0 <;> simp [mergeCode, firstNonZero, hc]
    · simp [completions, closing]
  | cons c rest ih =>
    intro w c0 k0 hk0 hk hctx href
    obtain ⟨v, m, s⟩ := c
    have hm : m.pRpcContext = some p := href (v, m, s) (List.mem_cons_self _ _)
    have hrest : ∀ c ∈ rest, c.2.1.pRpcContext = some p :=
      fun c hc => href c (List.mem_cons_of_mem _ hc)
    have hlen : ((List.length ((v, m, s) :: rest) : Nat) : Int) = (rest.length : Int) + 1 := by
      simp
    rw [hlen] at hk
    have hwrap : wrapInt32 (k0 + 1) = k0 + 1 := by
      apply wrapInt32_of_range
      · omega
      · unfold INT32_MAX at hmax
        omega
    obtain ⟨h1, h2⟩ := complete_ctx w v m s p hm
    rw [hctx] at h1 h2
    simp only [hwrap] at h1 h2
    have hfold : completions ((v, m, s) :: rest) w = completions rest (complete w (v, m, s)) := by
      simp [completions]
    obtain ⟨i1, i2⟩ := ih (complete w (v, m, s)) (if s ≠ 0 ∧ c0 = 0 then s else c0) (k0 + 1)
      (by omega) (by omega) h1 hrest
    rw [hfold, hlen]
    constructor
    · rw [i1, mergeCode_step]
      simp only [List.map_cons]
      congr 1
      omega
    · rw [i2, h2, mergeCode_step]
      simp only [List.map_cons, List.append_assoc]
      congr 1
      cases rest with
      | nil =>
        by_cases hlt : k0 + 1 < n
        · simp [hlt]
        · by_cases hs : s = 0 <;> by_cases hc : c0 = 0 <;>
            simp [hlt, closing, mergeCode, firstNonZero, hs, hc]
      | cons c2 rest2 =>
        have hlt : k0 + 1 < n := by
          simp only [List.length_cons, Nat.cast_add, Nat.cast_one] at hk
          omega
        have e : k0 + 1 + ((List.length (c2 :: rest2) : Nat) : Int) =
            k0 + (((List.length (c2 :: rest2) : Nat) : Int) + 1) := by omega
        rw [e]
        simp [hlt, closing, List.getLast?_cons_cons]

/-- The status at position `i` is the only non-zero one: it is the first non-zero. -/
theorem firstNonZero_single : ∀ (ss : List Int) (i : Nat) (E : Int),
    E ≠ 0 → ss.getD i 0 = E → (∀ j, j ≠ i → ss.getD j 0 = 0) → firstNonZero ss = E := by
  intro ss
  induction ss with
  | nil =>
    intro i E hE hi _
    simp at hi
    exact absurd hi.symm hE
  | cons s rest ih =>
    intro i E hE hi hj
    cases i with
    | zero =>
      simp at hi
      subst hi
      exact firstNonZero_cons_ne s rest hE
    | succ i =>
      have h0 : s = 0 := by
        have := hj 0 (by omega)
        simpa using this
      subst h0
      rw [firstNonZero_cons_zero]
      apply ih i E hE
      · simpa using hi
      · intro j hji
        have := hj (j + 1) (by omega)
        simpa using this

/-- Before the last of `n` completions nothing has been sent. -/
theorem completions_prefix (p : CtxPtr) (n : Int) (w0 : World)
    (cs : List (VnodePtr × SWriteMsg × Int)) (hmax : n ≤ INT32_MAX)
    (hctx : w0.ctxs p = { code := 0, count := 0, numOfVnodes := n })
    (hlen : (cs.length : Int) = n)
    (href : ∀ c ∈ cs, c.2.1.pRpcContext = some p) (k : Nat) (hk : k < cs.length) :
    responses (completions (cs.take k) w0).trace = responses w0.trace := by
  have hlt : (0 : Int) + ((cs.take k).length : Int) < n := by
    rw [List.length_take]
    omega
  have h := (completions_inv p n hmax (cs.take k) w0 0 0 (le_refl 0) (le_of_lt hlt) hctx
    (fun c hc => href c (List.mem_of_mem_take hc))).2
  rw [h, if_pos hlt, List.append_nil]

/-- C1: on a fan-out context with numOfVnodes = n >= 2, count = 0 and code = 0,
n completions with arbitrary status codes make exactly one rpcSendResponse
call in total: after each of the first n-1 completions nothing has been sent,
and after the n-th exactly one response has been sent. -/
theorem C1_exactly_one_response (p : CtxPtr) (n : Int) (w0 : World)
    (cs : List (VnodePtr × SWriteMsg × Int)) (hn : 2 ≤ n) (hmax : n ≤ INT32_MAX)
    (hctx : w0.ctxs p = { code := 0, count := 0, numOfVnodes := n })
    (hlen : (cs.length : Int) = n)
    (href : ∀ c ∈ cs, c.2.1.pRpcContext = some p) :
    (∀ k, k < cs.length →
        responses (completions (cs.take k) w0).trace = responses w0.trace) ∧
      (responses (completions cs w0).trace).length = (responses w0.trace).length + 1 := by
  refine ⟨fun k hk => completions_prefix p n w0 cs hmax hctx hlen href k hk, ?_⟩
  have h := (completions_inv p n hmax cs w0 0 0 (le_refl 0) (by omega) hctx href).2
  have hnlt : ¬ ((0 : Int) + (cs.length : Int) < n) := by omega
  rw [h, if_neg hnlt]
  cases hl : cs.getLast? with
  | none =>
    rw [List.getLast?_eq_none_iff] at hl
    subst hl
    simp at hlen
    omega
  | some c => simp [closing, hl]

/-- C2: on a fan-out context with numOfVnodes = n >= 2, count = 0 and code = 0,
after n completions with statuses s1..sn the one response sent carries the
first non-zero si in completion order, 0 if all are 0; if exactly one status
is a non-zero E and the others are 0, it carries E. -/
theorem C2_first_error_wins (p : CtxPtr) (n : Int) (w0 : World)
    (cs : List (VnodePtr × SWriteMsg × Int)) (hn : 2 ≤ n) (hmax : n ≤ INT32_MAX)
    (hctx : w0.ctxs p = { code := 0, count := 0, numOfVnodes := n })
    (hlen : (cs.length : Int) = n)
    (href : ∀ c ∈ cs, c.2.1.pRpcContext = some p) :
    (responses (completions cs w0).trace).map Prod.snd =
        (responses w0.trace).map Prod.snd ++ [firstNonZero (cs.map fun c => c.2.2)] ∧
      ∀ (i : Nat) (E : Int), E ≠ 0 → (cs.map fun c => c.2.2).getD i 0 = E →
        (∀ j, j ≠ i → (cs.map fun c => c.2.2).getD j 0 = 0) →
        (responses (completions cs w0).trace).map Prod.snd =
          (responses w0.trace).map Prod.snd ++ [E] := by
  have h := (completions_inv p n hmax cs w0 0 0 (le_refl 0) (by omega) hctx href).2
  have hnlt : ¬ ((0 : Int) + (cs.length : Int) < n) := by omega
  rw [if_neg hnlt] at h
  have main : (responses (completions cs w0).trace).map Prod.snd =
      (responses w0.trace).map Prod.snd ++ [firstNonZero (cs.map fun c => c.2.2)] := by
    rw [h]
    cases hl : cs.getLast? with
    | none =>
      rw [List.getLast?_eq_none_iff] at hl
      subst hl
      simp at hlen
      omega
    | some c => simp [closing, hl, mergeCode]
  refine ⟨main, fun i E hE hi hj => ?_⟩
  rw [main, firstNonZero_single _ i E hE hi hj]

/-- C3: for a sub-message whose pRpcContext is NULL and any status c in terrno,
dnodeProcessWriteResult releases the vnode, sends exactly one response with the
sub-message's request handle and code c, frees the request, leaves every
fan-out context as it was, and does the same whatever the contexts hold. -/
theorem C3_single_vnode_response (v : VnodePtr) (m : SWriteMsg) (c : Int) (w : World)
    (hm : m.pRpcContext = none) :
    (complete w (v, m, c)).trace =
        w.trace ++ [Event.processWriteResult v m c, Event.dnodeReleaseVnode v,
          Event.rpcSendResponse m.rpcMsg.handle c 0, Event.rpcFreeCont m.rpcMsg.pCont] ∧
      responses (complete w (v, m, c)).trace = responses w.trace ++ [(m.rpcMsg.handle, c)] ∧
      (complete w (v, m, c)).ctxs = w.ctxs ∧
      ∀ ctxs2 : CtxPtr → SRpcContext,
        (complete { w with ctxs := ctxs2 } (v, m, c)).trace = (complete w (v, m, c)).trace ∧
        (complete { w with ctxs := ctxs2 } (v, m, c)).ctxs = ctxs2 := by
  refine ⟨?_, ?_, ?_, fun ctxs2 => ⟨?_, ?_⟩⟩ <;>
    simp [complete, dnodeProcessWriteResult, hm, World.emit, sendWriteRsp, responses,
      List.filterMap_append]

/-! ## Splitting: dnodeWrite -/

theorem enqueued_append (a b : List Event) :
    enqueued (a ++ b) = enqueued a ++ enqueued b := by
  unfold enqueued
  exact List.filterMap_append a b _

/-- One pass of the loop body: the heap is untouched and at most one sub-message,
carrying `pRpcContext`, is enqueued. -/
theorem dnodeWriteBody_spec (lookup : Int → Option VnodePtr) (gw : VnodePtr → Queue)
    (pMsg : SRpcMsg) (ctx : Option CtxPtr) (vgId contLen : Int) (s : WriteLoop) :
    (dnodeWriteBody lookup gw pMsg ctx vgId contLen s).w.ctxs = s.w.ctxs ∧
      (dnodeWriteBody lookup gw pMsg ctx vgId contLen s).w.nextCtx = s.w.nextCtx ∧
      ∃ added, enqueued (dnodeWriteBody lookup gw pMsg ctx vgId contLen s).w.trace =
          enqueued s.w.trace ++ added ∧ ∀ m ∈ added, m.pRpcContext = ctx := by
  cases h : lookup vgId with
  | none =>
    refine ⟨?_, ?_, [], ?_, ?_⟩ <;>
      simp [dnodeWriteBody, h, World.emit, enqueued, List.filterMap_append]
  | some pVnode =>
    refine ⟨?_, ?_, [SWriteMsg.mk s.pCont contLen pMsg ctx], ?_, ?_⟩ <;>
      simp [dnodeWriteBody, h, World.emit, enqueued, List.filterMap_append]

theorem dnodeWriteRun_spec (gv : Nat → Int → Option VnodePtr) (gw : VnodePtr → Queue)
    (pMsg : SRpcMsg) (ctx : Option CtxPtr) (vgId contLen : Int) :
    ∀ (n i : Nat) (s : WriteLoop),
      (dnodeWriteRun gv gw pMsg ctx vgId contLen n i s).w.ctxs = s.w.ctxs ∧
        (dnodeWriteRun gv gw pMsg ctx vgId contLen n i s).w.nextCtx = s.w.nextCtx ∧
        ∃ added, enqueued (dnodeWriteRun gv gw pMsg ctx vgId contLen n i s).w.trace =
            enqueued s.w.trace ++ added ∧ ∀ m ∈ added, m.pRpcContext = ctx := by
  intro n
  induction n with
  | zero =>
    intro i s
    exact ⟨rfl, rfl, [], by simp [dnodeWriteRun], by simp⟩
  | succ n ih =>
    intro i s
    by_cases hl : s.leftLen > 0
    · obtain ⟨b1, b2, a1, b3, b4⟩ := dnodeWriteBody_spec (gv i) gw pMsg ctx vgId contLen s
      obtain ⟨r1, r2, a2, r3, r4⟩ :=
        ih (i + 1) (dnodeWriteBody (gv i) gw pMsg ctx vgId contLen s)
      simp only [dnodeWriteRun, if_pos hl]
      refine ⟨r1.trans b1, r2.trans b2, a1 ++ a2, ?_, ?_⟩
      · rw [r3, b3, List.append_assoc]
      · intro m hm
        rcases List.mem_append.mp hm with h | h
        · exact b4 m h
        · exact r4 m h
    · have e : dnodeWriteRun gv gw pMsg ctx vgId contLen (n + 1) i s = s := by
        simp only [dnodeWriteRun, if_neg hl]
      rw [e]
      exact ⟨rfl, rfl, [], by simp, by simp⟩

/-- With the local `contLen` at 0, a pass never changes `leftLen`. -/
theorem dnodeWriteRun_leftLen_zero (gv : Nat → Int → Option VnodePtr) (gw : VnodePtr → Queue)
    (pMsg : SRpcMsg) (ctx : Option CtxPtr) (vgId : Int) :
    ∀ (n i : Nat) (s : WriteLoop), -2147483648 ≤ s.leftLen → s.leftLen ≤ 2147483647 →
      (dnodeWriteRun gv gw pMsg ctx vgId 0 n i s).leftLen = s.leftLen := by
  intro n
  induction n with
  | zero => intro i s _ _; rfl
  | succ n ih =>
    intro i s h0 h1
    by_cases hl : s.leftLen > 0
    · have hb : (dnodeWriteBody (gv i) gw pMsg ctx vgId 0 s).leftLen = s.leftLen := by
        cases h : gv i vgId with
        | none => simp [dnodeWriteBody, h]
        | some pVnode =>
          simp only [dnodeWriteBody, h, sub_zero]
          exact wrapInt32_of_range _ h0 h1
      simp only [dnodeWriteRun, if_pos hl]
      rw [ih (i + 1) _ (by rw [hb]; exact h0) (by rw [hb]; exact h1), hb]
    · simp only [dnodeWriteRun, if_neg hl]

/-- When the lookup fails on every pass, a pass never changes `leftLen`,
whatever the local `contLen` holds. -/
theorem dnodeWriteRun_leftLen_notFound (gv : Nat → Int → Option VnodePtr)
    (gw : VnodePtr → Queue) (pMsg : SRpcMsg) (ctx : Option CtxPtr) (vgId contLen : Int)
    (hnf : ∀ i, gv i vgId = none) :
    ∀ (n i : Nat) (s : WriteLoop),
      (dnodeWriteRun gv gw pMsg ctx vgId contLen n i s).leftLen = s.leftLen := by
  intro n
  induction n with
  | zero => intro i s; rfl
  | succ n ih =>
    intro i s
    by_cases hl : s.leftLen > 0
    · simp only [dnodeWriteRun, if_pos hl]
      rw [ih (i + 1) _]
      simp [dnodeWriteBody, hnf i]
    · simp only [dnodeWriteRun, if_neg hl]

/-- C4: whatever the request and the shard lookups, and after any number of
passes through the loop, dnodeWrite has allocated no fan-out context (the heap
and the allocation pointer are as before) and every sub-message it has
enqueued carries a NULL pRpcContext: numOfVnodes is still 0 when it is
tested. -/
theorem C4_no_context_allocated (gv : Nat → Int → Option VnodePtr) (gw : VnodePtr → Queue)
    (pMsg : SRpcMsg) (n : Nat) (w : World) :
    (dnodeWriteSteps gv gw pMsg n w).w.ctxs = w.ctxs ∧
      (dnodeWriteSteps gv gw pMsg n w).w.nextCtx = w.nextCtx ∧
      ∃ added, enqueued (dnodeWriteSteps gv gw pMsg n w).w.trace = enqueued w.trace ++ added ∧
        ∀ m ∈ added, m.pRpcContext = none := by
  have h := dnodeWriteRun_spec gv gw pMsg none 0 0 n 0
    { leftLen := pMsg.contLen, pCont := pMsg.pCont, w := w }
  simpa [dnodeWriteSteps, dnodeWriteContext] using h

/-- C5: for a request of length contLen > 0 the loop of dnodeWrite never ends,
whatever the shard lookups answer: no bound on the passes is enough, since
`contLen` is never parsed and stays 0; and when the lookup fails on every pass
the `continue` leaves `leftLen` unchanged whatever `contLen` holds. -/
theorem C5_loop_does_not_terminate (gv : Nat → Int → Option VnodePtr) (gw : VnodePtr → Queue)
    (pMsg : SRpcMsg) (w : World) (hpos : 0 < pMsg.contLen) (hmax : pMsg.contLen ≤ INT32_MAX) :
    (∀ fuel, dnodeWrite gv gw pMsg fuel w = none) ∧
      ∀ (ctx : Option CtxPtr) (vgId contLen : Int) (n : Nat) (s : WriteLoop),
        (∀ i, gv i vgId = none) →
        (dnodeWriteRun gv gw pMsg ctx vgId contLen n 0 s).leftLen = s.leftLen := by
  refine ⟨fun fuel => ?_, fun ctx vgId contLen n s hnf =>
    dnodeWriteRun_leftLen_notFound gv gw pMsg ctx vgId contLen hnf n 0 s⟩
  have hl := dnodeWriteRun_leftLen_zero gv gw pMsg (dnodeWriteContext w).1 0 fuel 0
    { leftLen := pMsg.contLen, pCont := pMsg.pCont, w := (dnodeWriteContext w).2 }
    (by simp only; omega) (by unfold INT32_MAX at hmax; simpa using hmax)
  simp only [dnodeWrite, dnodeWriteSteps]
  rw [hl]
  simp [hpos]

/-! ## Worker loop: dnodeProcessWriteQueue -/

theorem NoWalSince.refl (w : World) : NoWalSince w w :=
  ⟨[], by simp, by simp⟩

theorem NoWalSince.trans {a b c : World} (h1 : NoWalSince a b) (h2 : NoWalSince b c) :
    NoWalSince a c := by
  obtain ⟨x, hx, px⟩ := h1
  obtain ⟨y, hy, py⟩ := h2
  refine ⟨x ++ y, by rw [hy, hx, List.append_assoc], ?_⟩
  intro e he
  rcases List.mem_append.mp he with h | h
  · exact px e h
  · exact py e h

theorem NoWalSince.emit (w : World) (e : Event) (he : e.isWal = false) :
    NoWalSince w (w.emit e) :=
  ⟨[e], rfl, by simpa using he⟩

/-- The calls of `dnodeProcessWriteResult`: its entry, the vnode release, and
then either nothing or one response followed by the release of the request. -/
theorem dnodeProcessWriteResult_trace (v : VnodePtr) (m : SWriteMsg) (w : World) :
    ∃ tail, (dnodeProcessWriteResult v m w).trace =
        w.trace ++ ([Event.processWriteResult v m w.terrno, Event.dnodeReleaseVnode v] ++ tail) ∧
      (tail = [] ∨ ∃ c, tail =
        [Event.rpcSendResponse m.rpcMsg.handle c 0, Event.rpcFreeCont m.rpcMsg.pCont]) := by
  cases hm : m.pRpcContext with
  | none =>
    exact ⟨[Event.rpcSendResponse m.rpcMsg.handle w.terrno 0, Event.rpcFreeCont m.rpcMsg.pCont],
      by simp [dnodeProcessWriteResult, hm, World.emit, sendWriteRsp], Or.inr ⟨_, rfl⟩⟩
  | some p =>
    simp only [dnodeProcessWriteResult, hm]
    split_ifs
    all_goals first
      | (refine ⟨[], ?_, Or.inl rfl⟩
         simp [World.emit, World.setCtx]
         done)
      | (refine ⟨[Event.rpcSendResponse m.rpcMsg.handle w.terrno 0,
           Event.rpcFreeCont m.rpcMsg.pCont], ?_, Or.inr ⟨w.terrno, rfl⟩⟩
         simp [World.emit, World.setCtx, sendWriteRsp]
         done)
      | (refine ⟨[Event.rpcSendResponse m.rpcMsg.handle (w.ctxs p).code 0,
           Event.rpcFreeCont m.rpcMsg.pCont], ?_, Or.inr ⟨(w.ctxs p).code, rfl⟩⟩
         simp [World.emit, World.setCtx, sendWriteRsp])

theorem dnodeProcessWriteResult_noWal (v : VnodePtr) (m : SWriteMsg) (w : World) :
    NoWalSince w (dnodeProcessWriteResult v m w) := by
  obtain ⟨tail, ht, hc⟩ := dnodeProcessWriteResult_trace v m w
  refine ⟨_, ht, ?_⟩
  intro e he
  rcases hc with h | ⟨c, h⟩ <;> subst h <;> simp at he
  · rcases he with h | h <;> subst h <;> rfl
  · rcases he with h | h | h | h <;> subst h <;> rfl

theorem processItem_noWal (fp : FpTable) (K : Consts) (v : VnodePtr) (w : World)
    (m : SWriteMsg) : NoWalSince w (processItem fp K v w m) := by
  unfold processItem
  cases hf : fp m.rpcMsg.msgType with
  | none =>
    refine NoWalSince.trans ?_ (dnodeProcessWriteResult_noWal v m _)
    exact ⟨[Event.taosGetQitem m], rfl, by simp [Event.isWal]⟩
  | some h =>
    refine NoWalSince.trans ?_ (dnodeProcessWriteResult_noWal v m _)
    exact ⟨[Event.taosGetQitem m, Event.processWriteMsgFp m.rpcMsg.msgType v m 0],
      by simp [World.emit], by simp [Event.isWal]⟩

theorem foldl_processItem_noWal (fp : FpTable) (K : Consts) (v : VnodePtr) :
    ∀ (qall : List SWriteMsg) (w : World),
      NoWalSince w (qall.foldl (processItem fp K v) w) := by
  intro qall
  induction qall with
  | nil => intro w; exact NoWalSince.refl w
  | cons m ms ih =>
    intro w
    exact NoWalSince.trans (processItem_noWal fp K v w m) (ih _)

theorem fetchPass_trace : ∀ (qall : List SWriteMsg) (w : World),
    (fetchPass qall w).trace = w.trace ++ qall.map Event.taosGetQitem := by
  intro qall
  induction qall with
  | nil => intro w; simp [fetchPass]
  | cons m ms ih =>
    intro w
    have := ih (w.emit (Event.taosGetQitem m))
    simp only [fetchPass, List.foldl_cons] at this ⊢
    rw [this]
    simp [World.emit]

/-- C6: for every batch, the log of one pass of the worker loop is the log
before, then one taosGetQitem per item in batch order, then taosResetQitems,
then the processing calls; and none of the calls made is a durability-log
append or flush: the walWrite and walFsync calls are comments. -/
theorem C6_no_wal_call (fp : FpTable) (K : Consts) (pVnode : VnodePtr)
    (qall : List SWriteMsg) (w : World) :
    (∃ rest, (processBatch fp K pVnode qall w).trace =
        w.trace ++ qall.map Event.taosGetQitem ++ [Event.taosResetQitems] ++ rest ∧
        ∀ e ∈ rest, e.isWal = false) ∧
      ((processBatch fp K pVnode qall w).trace.filter Event.isWal).length =
        (w.trace.filter Event.isWal).length := by
  obtain ⟨added, h1, h2⟩ := foldl_processItem_noWal fp K pVnode qall
    ((fetchPass qall w).emit Event.taosResetQitems)
  have ht : (processBatch fp K pVnode qall w).trace =
      w.trace ++ qall.map Event.taosGetQitem ++ [Event.taosResetQitems] ++
        (added ++ [Event.taosFreeQitems]) := by
    have e1 : (processBatch fp K pVnode qall w).trace =
        (qall.foldl (processItem fp K pVnode)
          ((fetchPass qall w).emit Event.taosResetQitems)).trace ++ [Event.taosFreeQitems] := rfl
    have e2 : ((fetchPass qall w).emit Event.taosResetQitems).trace =
        (fetchPass qall w).trace ++ [Event.taosResetQitems] := rfl
    rw [e1, h1, e2, fetchPass_trace]
    simp only [List.append_assoc]
  have hr : ∀ e ∈ added ++ [Event.taosFreeQitems], e.isWal = false := by
    intro e he
    rcases List.mem_append.mp he with h | h
    · exact h2 e h
    · simp at h
      subst h
      rfl
  refine ⟨⟨added ++ [Event.taosFreeQitems], ht, hr⟩, ?_⟩
  rw [ht]
  have hz : ∀ l : List Event, (∀ e ∈ l, e.isWal = false) → l.filter Event.isWal = [] := by
    intro l hl
    rw [List.filter_eq_nil_iff]
    intro e he
    simp [hl e he]
  have hq : (qall.map Event.taosGetQitem).filter Event.isWal = [] := by
    apply hz
    intro e he
    obtain ⟨m, _, rfl⟩ := List.mem_map.mp he
    rfl
  simp [List.filter_append, hz _ hr, hq, Event.isWal]

theorem applyLog_append (a b : List Event) : applyLog (a ++ b) = applyLog a ++ applyLog b := by
  unfold applyLog
  exact List.filter_append a b

theorem dnodeProcessWriteResult_applyLog (v : VnodePtr) (m : SWriteMsg) (w : World) :
    applyLog (dnodeProcessWriteResult v m w).trace =
      applyLog w.trace ++ [Event.processWriteResult v m w.terrno] := by
  obtain ⟨tail, ht, hc⟩ := dnodeProcessWriteResult_trace v m w
  rw [ht]
  rcases hc with h | ⟨c, h⟩ <;> subst h <;>
    simp [applyLog, List.filter_append, List.filter_cons, Event.isApply]

theorem processItem_applyLog (fp : FpTable) (K : Consts) (v : VnodePtr) (w : World)
    (m : SWriteMsg) :
    applyLog (processItem fp K v w m).trace = applyLog w.trace ++ itemLog fp K v m := by
  unfold processItem itemLog
  cases hf : fp m.rpcMsg.msgType with
  | none =>
    simp only [dnodeProcessWriteResult_applyLog]
    simp [World.emit, applyLog, List.filter_append, List.filter_cons, Event.isApply]
  | some h =>
    simp only [dnodeProcessWriteResult_applyLog]
    simp [World.emit, applyLog, List.filter_append, List.filter_cons, Event.isApply]

theorem foldl_processItem_applyLog (fp : FpTable) (K : Consts) (v : VnodePtr) :
    ∀ (qall : List SWriteMsg) (w : World),
      applyLog (qall.foldl (processItem fp K v) w).trace =
        applyLog w.trace ++ batchLog fp K v qall := by
  intro qall
  induction qall with
  | nil => intro w; simp [batchLog]
  | cons m ms ih =>
    intro w
    simp only [List.foldl_cons, batchLog]
    rw [ih, processItem_applyLog, List.append_assoc]

/-- C7: for every handler table, batch and starting state, the handler calls
and dnodeProcessWriteResult calls of one pass are, item by item in batch
order: when a handler is registered for the item's message kind, one call of
it with terrno reset to 0, then the result call with the terrno the handler
leaves; when none is registered, the result call with
TSDB_CODE_MSG_NOT_PROCESSED.  Nothing in it depends on terrno before the pass
or on another item. -/
theorem C7_status_per_item (fp : FpTable) (K : Consts) (pVnode : VnodePtr)
    (qall : List SWriteMsg) (w : World) :
    applyLog (processBatch fp K pVnode qall w).trace =
      applyLog w.trace ++ batchLog fp K pVnode qall := by
  have e1 : (processBatch fp K pVnode qall w).trace =
      (qall.foldl (processItem fp K pVnode)
        ((fetchPass qall w).emit Event.taosResetQitems)).trace ++ [Event.taosFreeQitems] := rfl
  have e2 : ((fetchPass qall w).emit Event.taosResetQitems).trace =
      (fetchPass qall w).trace ++ [Event.taosResetQitems] := rfl
  have e3 : applyLog (qall.map Event.taosGetQitem) = [] := by
    unfold applyLog
    rw [List.filter_eq_nil_iff]
    intro e he
    obtain ⟨m, _, rfl⟩ := List.mem_map.mp he
    simp [Event.isApply]
  rw [e1, applyLog_append, foldl_processItem_applyLog, e2, applyLog_append, fetchPass_trace,
    applyLog_append, e3]
  simp [applyLog, Event.isApply]

/-! ## Worker pool: dnodeAllocateWriteWorker -/

theorem ensureWorker_some (o : AllocOutcome) (wk wk2 : SWriteWorker)
    (h : (ensureWorker o wk).1 = some wk2) :
    wk2.qset.isSome = true ∧ wk2.workerId = wk.workerId := by
  unfold ensureWorker at h
  cases hq : wk.qset with
  | some q =>
    simp only [hq] at h
    cases h
    simp [hq]
  | none =>
    simp only [hq] at h
    cases h1 : o.qsetOk <;> cases h2 : o.threadOk <;> simp [h1, h2] at h <;> subst h <;> simp

/-- A call that returns a queue: the queue is the one `taosOpenQueue` gave, it
has been added to the qset of the slot at the old cursor, the other slots are
untouched and the cursor has moved on. -/
theorem alloc_success (o : AllocOutcome) (v : VnodePtr) (pool : SWriteWorkerPool) (q : Queue)
    (h : (dnodeAllocateWriteWorker o v pool).1 = some q) :
    ∃ wk, (ensureWorker o (pool.writeWorker pool.nextId)).1 = some wk ∧
      (dnodeAllocateWriteWorker o v pool).2.1.writeWorker pool.nextId =
        { wk with qset := taosAddIntoQset wk.qset q v } ∧
      (∀ j, j ≠ pool.nextId →
        (dnodeAllocateWriteWorker o v pool).2.1.writeWorker j = pool.writeWorker j) ∧
      (dnodeAllocateWriteWorker o v pool).2.1.nextId =
        Int.tmod (wrapInt32 (pool.nextId + 1)) pool.max ∧
      (dnodeAllocateWriteWorker o v pool).2.1.max = pool.max := by
  cases h1 : (ensureWorker o (pool.writeWorker pool.nextId)).1 with
  | none => simp [dnodeAllocateWriteWorker, h1] at h
  | some wk =>
    cases h2 : o.queue with
    | none => simp [dnodeAllocateWriteWorker, h1, h2] at h
    | some q2 =>
      have hE : dnodeAllocateWriteWorker o v pool =
          (some q2,
            { (pool.setWorker pool.nextId { wk with qset := taosAddIntoQset wk.qset q2 v }) with
              nextId := Int.tmod (wrapInt32 (pool.nextId + 1)) pool.max },
            (ensureWorker o (pool.writeWorker pool.nextId)).2 ++
              [Event.taosOpenQueue (some q2), Event.taosAddIntoQset q2 v]) := by
        simp only [dnodeAllocateWriteWorker, h1, h2]
      rw [hE] at h ⊢
      simp only [Option.some.injEq] at h
      subst h
      refine ⟨wk, rfl, ?_, ?_, rfl, rfl⟩
      · simp [SWriteWorkerPool.setWorker]
      · intro j hj
        simp [SWriteWorkerPool.setWorker, hj]

/-- A call that returns NULL leaves the cursor and the capacity as they were. -/
theorem alloc_failure (o : AllocOutcome) (v : VnodePtr) (pool : SWriteWorkerPool)
    (h : (dnodeAllocateWriteWorker o v pool).1 = none) :
    (dnodeAllocateWriteWorker o v pool).2.1.nextId = pool.nextId ∧
      (dnodeAllocateWriteWorker o v pool).2.1.max = pool.max := by
  cases h1 : (ensureWorker o (pool.writeWorker pool.nextId)).1 with
  | none => simp [dnodeAllocateWriteWorker, h1]
  | some wk =>
    cases h2 : o.queue with
    | none => simp [dnodeAllocateWriteWorker, h1, h2, SWriteWorkerPool.setWorker]
    | some q2 => simp [dnodeAllocateWriteWorker, h1, h2] at h

/-- The cursor update `(nextId + 1) % max` inside the bounds of the claim. -/
theorem cursor_next (N i : Int) (hN : 1 ≤ N) (hmax : N ≤ INT32_MAX) (h0 : 0 ≤ i) (h1 : i < N) :
    Int.tmod (wrapInt32 (i + 1)) N = (i + 1) % N := by
  have hw : wrapInt32 (i + 1) = i + 1 := by
    apply wrapInt32_of_range
    · omega
    · unfold INT32_MAX at hmax
      omega
  rw [hw, Int.tmod_eq_emod (by omega) (by omega)]

theorem cursor_next_bounds (N i : Int) (hN : 1 ≤ N) :
    0 ≤ (i + 1) % N ∧ (i + 1) % N < N :=
  ⟨Int.emod_nonneg _ (by omega), Int.emod_lt_of_pos _ (by omega)⟩

/-- The slots used by the successful calls of a sequence are the cursor values
`nextId, nextId + 1, ...` taken modulo the capacity. -/
theorem allocSlots_eq (N : Int) (hN : 1 ≤ N) (hmax : N ≤ INT32_MAX) :
    ∀ (calls : List (AllocOutcome × VnodePtr)) (pool : SWriteWorkerPool),
      pool.max = N → 0 ≤ pool.nextId → pool.nextId < N →
      allocSlots calls pool =
        (List.range (allocSlots calls pool).length).map
          (fun (k : Nat) => (pool.nextId + (k : Int)) % N) := by
  intro calls
  induction calls with
  | nil => intro pool _ _ _; simp [allocSlots]
  | cons c rest ih =>
    intro pool hm h0 h1
    cases hr : (dnodeAllocateWriteWorker c.1 c.2 pool).1 with
    | none =>
      obtain ⟨e1, e2⟩ := alloc_failure c.1 c.2 pool hr
      have := ih (dnodeAllocateWriteWorker c.1 c.2 pool).2.1 (e2.trans hm) (e1 ▸ h0) (e1 ▸ h1)
      simp only [allocSlots, hr]
      rw [e1] at this
      exact this
    | some q =>
      obtain ⟨wk, _, _, _, e1, e2⟩ := alloc_success c.1 c.2 pool q hr
      rw [hm, cursor_next N pool.nextId hN hmax h0 h1] at e1
      obtain ⟨b0, b1⟩ := cursor_next_bounds N pool.nextId hN
      have := ih (dnodeAllocateWriteWorker c.1 c.2 pool).2.1 (e2.trans hm) (e1 ▸ b0) (e1 ▸ b1)
      simp only [allocSlots, hr, List.length_cons]
      rw [List.range_succ_eq_map, List.map_cons, List.map_map]
      congr 1
      · simp [Int.emod_eq_of_lt h0 h1]
      · rw [e1] at this
        rw [this]
        simp only [List.length_map, List.length_range]
        apply List.map_congr_left
        intro k _
        simp only [Function.comp, Nat.succ_eq_add_one, Nat.cast_add, Nat.cast_one]
        rw [Int.emod_add_emod]
        congr 1
        omega

/-- A full turn of the cursor visits every slot exactly once. -/
theorem turn_count (N s j : Int) (n : Nat) (hn : (n : Int) = N) (hj0 : 0 ≤ j) (hj1 : j < N) :
    ((List.range n).map (fun (k : Nat) => (s + (k : Int)) % N)).count j = 1 := by
  have hNpos : 0 < N := by omega
  apply List.count_eq_one_of_mem
  · apply List.Nodup.map_on _ (List.nodup_range n)
    intro x hx y hy hxy
    rw [List.mem_range] at hx hy
    have h1 : ((x : Int)) % N = (y : Int) % N := by
      have := Int.ModEq.add_left_cancel' s (show (s + (x : Int)) ≡ (s + (y : Int)) [ZMOD N] from hxy)
      exact this
    rw [Int.emod_eq_of_lt (by omega) (by omega), Int.emod_eq_of_lt (by omega) (by omega)] at h1
    exact_mod_cast h1
  · rw [List.mem_map]
    refine ⟨((j - s) % N).toNat, ?_, ?_⟩
    · rw [List.mem_range]
      have := Int.emod_lt_of_pos (j - s) hNpos
      have := Int.emod_nonneg (j - s) (ne_of_gt hNpos)
      omega
    · have h2 := Int.emod_nonneg (j - s) (ne_of_gt hNpos)
      simp only [Int.toNat_of_nonneg h2]
      rw [Int.add_emod_emod]
      have : s + (j - s) = j := by omega
      rw [this, Int.emod_eq_of_lt hj0 hj1]

/-- C8: in a pool with max = N >= 1 and 0 <= nextId < N, every call of
dnodeAllocateWriteWorker leaves 0 <= nextId < N and max = N; a call that
returns a queue has added that queue to the qset of the slot at the old
cursor, has left the other slots alone, and leaves nextId = (old nextId + 1)
mod N; and over any sequence of calls in which N return a queue, each of the N
slots is used by exactly one of them. -/
theorem C8_round_robin_cursor (N : Int) (o : AllocOutcome) (v : VnodePtr)
    (pool : SWriteWorkerPool) (hN : 1 ≤ N) (hmax : N ≤ INT32_MAX) (hm : pool.max = N)
    (h0 : 0 ≤ pool.nextId) (h1 : pool.nextId < N) :
    (0 ≤ (dnodeAllocateWriteWorker o v pool).2.1.nextId ∧
        (dnodeAllocateWriteWorker o v pool).2.1.nextId < N ∧
        (dnodeAllocateWriteWorker o v pool).2.1.max = N) ∧
      (∀ q, (dnodeAllocateWriteWorker o v pool).1 = some q →
        (∃ qs, ((dnodeAllocateWriteWorker o v pool).2.1.writeWorker pool.nextId).qset = some qs ∧
          qs.queues.getLast? = some (q, v)) ∧
        (∀ j, j ≠ pool.nextId →
          (dnodeAllocateWriteWorker o v pool).2.1.writeWorker j = pool.writeWorker j) ∧
        (dnodeAllocateWriteWorker o v pool).2.1.nextId = (pool.nextId + 1) % N) ∧
      (∀ calls : List (AllocOutcome × VnodePtr),
        ((allocSlots calls pool).length : Int) = N →
        ∀ j, 0 ≤ j → j < N → (allocSlots calls pool).count j = 1) := by
  refine ⟨?_, ?_, ?_⟩
  · cases hr : (dnodeAllocateWriteWorker o v pool).1 with
    | none =>
      obtain ⟨e1, e2⟩ := alloc_failure o v pool hr
      rw [e1, e2]
      exact ⟨h0, h1, hm⟩
    | some q =>
      obtain ⟨wk, _, _, _, e1, e2⟩ := alloc_success o v pool q hr
      rw [hm, cursor_next N pool.nextId hN hmax h0 h1] at e1
      obtain ⟨b0, b1⟩ := cursor_next_bounds N pool.nextId hN
      rw [e1, e2]
      exact ⟨b0, b1, hm⟩
  · intro q hr
    obtain ⟨wk, hw, e0, ej, e1, _⟩ := alloc_success o v pool q hr
    rw [hm, cursor_next N pool.nextId hN hmax h0 h1] at e1
    refine ⟨?_, ej, e1⟩
    obtain ⟨hs, _⟩ := ensureWorker_some o _ wk hw
    rw [e0]
    cases hq : wk.qset with
    | none => simp [hq] at hs
    | some qs => exact ⟨_, rfl, by simp⟩
  · intro calls hlen j hj0 hj1
    rw [allocSlots_eq N hN hmax calls pool hm h0 h1]
    exact turn_count N pool.nextId j _ hlen hj0 hj1

/-! ## Idle workers: dnodeHandleIdleWorker -/

/-- The allocation that follows on a slot whose qset is NULL, when the qset
and the thread can be created. -/
theorem alloc_on_empty_slot (o : AllocOutcome) (v : VnodePtr) (pool : SWriteWorkerPool)
    (wk : SWriteWorker) (hslot : pool.writeWorker pool.nextId = wk) (hq : wk.qset = none) :
    (dnodeAllocateWriteWorker o v pool).2.2.head? = some (Event.taosOpenQset o.qsetOk) ∧
      (o.qsetOk = true → o.threadOk = true →
        (dnodeAllocateWriteWorker o v pool).2.2.take 2 =
            [Event.taosOpenQset true, Event.pthreadCreate true] ∧
          (dnodeAllocateWriteWorker o v pool).2.1.writeWorker pool.nextId =
            { qset := some { closed := false
                             queues := match o.queue with
                               | some q => [(q, v)]
                               | none => [] }
              thread := true
              workerId := wk.workerId }) := by
  cases h1 : o.qsetOk <;> cases h2 : o.threadOk <;> cases h3 : o.queue <;>
    simp [dnodeAllocateWriteWorker, ensureWorker, hslot, hq, h1, h2, h3,
      SWriteWorkerPool.setWorker, taosAddIntoQset, taosCloseQset]

/-- C9: for a worker whose slot holds a qset, dnodeHandleIdleWorker calls
pthread_exit if and only if the qset owns no queue.  In that case it has
closed the qset, reset the slot's qset to NULL and the thread is gone, and the
next dnodeAllocateWriteWorker on that slot first calls taosOpenQset and, when
that and pthread_create succeed, leaves the slot with a newly opened qset
(holding only the new queue) and a running worker.  When the qset owns a queue
the worker sleeps and yields and the slot is unchanged. -/
theorem C9_idle_worker_exit (wk : SWriteWorker) (qs : Qset) (hq : wk.qset = some qs) :
    (Event.pthreadExit ∈ (dnodeHandleIdleWorker wk).2 ↔ qs.queues = []) ∧
      (qs.queues = [] →
        dnodeHandleIdleWorker wk =
            ({ wk with qset := none, thread := false },
              [Event.taosCloseQset, Event.pthreadExit]) ∧
          ∀ (o : AllocOutcome) (v : VnodePtr) (pool : SWriteWorkerPool),
            pool.writeWorker pool.nextId = (dnodeHandleIdleWorker wk).1 →
            (dnodeAllocateWriteWorker o v pool).2.2.head? =
                some (Event.taosOpenQset o.qsetOk) ∧
              (o.qsetOk = true → o.threadOk = true →
                (dnodeAllocateWriteWorker o v pool).2.2.take 2 =
                    [Event.taosOpenQset true, Event.pthreadCreate true] ∧
                  (dnodeAllocateWriteWorker o v pool).2.1.writeWorker pool.nextId =
                    { qset := some { closed := false
                                     queues := match o.queue with
                                       | some q => [(q, v)]
                                       | none => [] }
                      thread := true
                      workerId := wk.workerId })) ∧
      (qs.queues ≠ [] →
        dnodeHandleIdleWorker wk = (wk, [Event.usleep 100, Event.schedYield])) := by
  have hnum : taosGetQueueNumber wk.qset = (qs.queues.length : Int) := by
    simp [taosGetQueueNumber, hq]
  have hexit : qs.queues = [] → dnodeHandleIdleWorker wk =
      ({ wk with qset := none, thread := false }, [Event.taosCloseQset, Event.pthreadExit]) := by
    intro he
    simp [dnodeHandleIdleWorker, hnum, he]
  have hstay : qs.queues ≠ [] →
      dnodeHandleIdleWorker wk = (wk, [Event.usleep 100, Event.schedYield]) := by
    intro hne
    have hpos : (0 : Int) < (qs.queues.length : Int) := by
      have := List.length_pos.mpr hne
      omega
    simp [dnodeHandleIdleWorker, hnum, hpos]
  refine ⟨?_, ?_, hstay⟩
  · by_cases he : qs.queues = []
    · simp [hexit he, he]
    · simp [hstay he, he]
  · intro he
    refine ⟨hexit he, ?_⟩
    intro o v pool hslot
    have h := alloc_on_empty_slot o v pool (dnodeHandleIdleWorker wk).1 hslot
      (by rw [hexit he])
    rw [hexit he] at h
    exact h

/-- C10: on a slot whose qset is NULL, when taosOpenQset succeeds,
pthread_create fails and taosOpenQueue returns a queue,
dnodeAllocateWriteWorker returns that queue although the slot's qset has been
closed by taosCloseQset and no worker thread runs on it. -/
theorem C10_queue_on_closed_qset (o : AllocOutcome) (v : VnodePtr) (pool : SWriteWorkerPool)
    (q : Queue) (hq : (pool.writeWorker pool.nextId).qset = none)
    (ht : (pool.writeWorker pool.nextId).thread = false)
    (h1 : o.qsetOk = true) (h2 : o.threadOk = false) (h3 : o.queue = some q) :
    (dnodeAllocateWriteWorker o v pool).1 = some q ∧
      ((dnodeAllocateWriteWorker o v pool).2.1.writeWorker pool.nextId).qset =
        some { closed := true, queues := [(q, v)] } ∧
      ((dnodeAllocateWriteWorker o v pool).2.1.writeWorker pool.nextId).thread = false ∧
      (dnodeAllocateWriteWorker o v pool).2.2 =
        [Event.taosOpenQset true, Event.pthreadCreate false, Event.taosCloseQset,
          Event.taosOpenQueue (some q), Event.taosAddIntoQset q v] := by
  simp [dnodeAllocateWriteWorker, ensureWorker, hq, ht, h1, h2, h3,
    SWriteWorkerPool.setWorker, taosAddIntoQset, taosCloseQset]

/-! ## The theorems at concrete inputs -/

/-- The statement of C1 on two completions of a fan-out over 2 vnodes. -/
theorem C1_exactly_one_response_witness :
    (2 : Int) ≤ 2 ∧ ((exCompletions.length : Nat) : Int) = 2 ∧
      (responses (completions exCompletions exWorld).trace).length =
        (responses exWorld.trace).length + 1 :=
  ⟨by decide, by decide,
    (C1_exactly_one_response 0 2 exWorld exCompletions (by decide) (by decide) rfl
      (by decide) (by decide)).2⟩

/-- The statement of C2 on two completions with statuses 5 and 0. -/
theorem C2_first_error_wins_witness :
    (2 : Int) ≤ 2 ∧ ((exCompletions.length : Nat) : Int) = 2 ∧
      (responses (completions exCompletions exWorld).trace).map Prod.snd =
        (responses exWorld.trace).map Prod.snd ++
          [firstNonZero (exCompletions.map fun c => c.2.2)] :=
  ⟨by decide, by decide,
    (C2_first_error_wins 0 2 exWorld exCompletions (by decide) (by decide) rfl
      (by decide) (by decide)).1⟩

/-- The statement of C3 on a sub-message without context and status 5. -/
theorem C3_single_vnode_response_witness :
    (exWrite none).pRpcContext = none ∧
      responses (complete exWorld (11, exWrite none, 5)).trace =
        responses exWorld.trace ++ [((exWrite none).rpcMsg.handle, 5)] :=
  ⟨rfl, (C3_single_vnode_response 11 (exWrite none) 5 exWorld rfl).2.1⟩

/-- The loop on a 16-byte request is still running after 1000 passes. -/
theorem C5_loop_does_not_terminate_witness :
    0 < exRpcMsg.contLen ∧ exRpcMsg.contLen ≤ INT32_MAX ∧
      dnodeWrite (fun _ _ => some 11) (fun _ => 3) exRpcMsg 1000 exWorld = none :=
  ⟨by decide, by decide,
    (C5_loop_does_not_terminate (fun _ _ => some 11) (fun _ => 3) exRpcMsg exWorld
      (by decide) (by decide)).1 1000⟩

/-- The cursor bound after one allocation on a fresh pool of 2 slots. -/
theorem C8_round_robin_cursor_witness :
    exPool.max = 2 ∧ 0 ≤ exPool.nextId ∧ exPool.nextId < 2 ∧
      (dnodeAllocateWriteWorker ⟨true, true, some 7⟩ 11 exPool).2.1.nextId < 2 :=
  ⟨rfl, by decide, by decide,
    (C8_round_robin_cursor 2 ⟨true, true, some 7⟩ 11 exPool (by decide) (by decide) rfl
      (by decide) (by decide)).1.2.1⟩

/-- The idle check on a worker whose qset owns no queue. -/
theorem C9_idle_worker_exit_witness :
    exIdleWorker.qset = some { closed := false, queues := [] } ∧
      (Event.pthreadExit ∈ (dnodeHandleIdleWorker exIdleWorker).2 ↔
        (Qset.mk false []).queues = []) :=
  ⟨rfl, (C9_idle_worker_exit exIdleWorker { closed := false, queues := [] } rfl).1⟩

/-- The allocation on a fresh pool when the thread cannot be created. -/
theorem C10_queue_on_closed_qset_witness :
    (exPool.writeWorker exPool.nextId).qset = none ∧
      (dnodeAllocateWriteWorker exThreadFails 11 exPool).1 = some 7 ∧
      ((dnodeAllocateWriteWorker exThreadFails 11 exPool).2.1.writeWorker exPool.nextId).qset =
        some { closed := true, queues := [(7, 11)] } ∧
      ((dnodeAllocateWriteWorker exThreadFails 11 exPool).2.1.writeWorker exPool.nextId).thread =
        false :=
  ⟨rfl, (C10_queue_on_closed_qset exThreadFails 11 exPool 7 rfl rfl rfl rfl rfl).1,
    (C10_queue_on_closed_qset exThreadFails 11 exPool 7 rfl rfl rfl rfl rfl).2.1,
    (C10_queue_on_closed_qset exThreadFails 11 exPool 7 rfl rfl rfl rfl rfl).2.2.1⟩

end DnodeWrite
